import Mathlib

/-
Verification of the site-editor core: the editor state store (change history
with undo/redo and draft/publish staging), the draft/publish reconciliation
logic, the iframe communication bridge, and the preview-side agent.

The definitions below are a shallow embedding of the TypeScript sources:
  - app/src/lib/stores/editorStore.ts        (EditorState, addContentChange, ...)
  - app/src/hooks/useEditorState.ts          (undo, redo, handleContentChanged)
  - app/src/lib/communication/iframe-bridge.ts (IframeBridge)
  - templates/business/src/lib/editor-bridge.ts (ClientEditorBridge, the agent)

Modelling conventions: JavaScript Maps become association lists with
replace-in-place insertion; environment-provided nondeterminism
(Date.now(), Math.random()-based ids) becomes explicit parameters;
JS truthiness on values that can be undefined becomes Option plus an
explicit truthiness test.
-/

namespace SiteEditor

/-- Content values exchanged between editor and preview
(TS `ContentValue = string | boolean | number`); numbers are modelled
as integers since the program uses them only as opaque scalars. -/
inductive ContentValue where
  | str : String → ContentValue
  | bool : Bool → ContentValue
  | num : Int → ContentValue
  deriving DecidableEq, Repr

/-- JavaScript truthiness of a `ContentValue` (empty string, `false` and `0`
are falsy). -/
def jsTruthy : ContentValue → Bool
  | .str s => !(s == "")
  | .bool b => b
  | .num n => !(n == 0)

/-- JS `x || d` where `x` may be `undefined` (modelled by `none`). -/
def jsOrCV (x : Option ContentValue) (d : ContentValue) : ContentValue :=
  match x with
  | some v => if jsTruthy v then v else d
  | none => d

/-- JS truthiness of a possibly-null/undefined string. -/
def jsTruthyStr (x : Option String) : Bool :=
  match x with
  | some s => !(s == "")
  | none => false

/-- JS `x || d` on a possibly-null/undefined string. -/
def jsOrStr (x : Option String) (d : String) : String :=
  match x with
  | some s => if s == "" then d else s
  | none => d

/-- A JavaScript `Map` with string keys, modelled as an association list
with replace-in-place insertion (JS Maps keep the original insertion slot
when a key is overwritten). -/
abbrev SMap (α : Type) := List (String × α)

variable {α : Type}

/-- `Map.get`: first entry with the key (keys are unique when the map is
built by `mapSet`). -/
def mapGet (m : SMap α) (k : String) : Option α :=
  match m with
  | [] => none
  | (k2, v) :: rest => if k2 = k then some v else mapGet rest k

/-- `Map.set`: replace in place, or append a fresh entry. -/
def mapSet (m : SMap α) (k : String) (v : α) : SMap α :=
  match m with
  | [] => [(k, v)]
  | (k2, w) :: rest => if k2 = k then (k, v) :: rest else (k2, w) :: mapSet rest k v

/-- `Map.has`. -/
def mapHas (m : SMap α) (k : String) : Bool :=
  (mapGet m k).isSome

/-- Change kinds (TS `'text' | 'image' | 'toggle' | 'config'`). -/
inductive ChangeType where
  | text
  | image
  | toggle
  | config
  deriving DecidableEq, Repr

/-- TS `ContentUpdate` from message-types.ts (image metadata included). -/
structure ContentUpdate where
  elementId : String
  type : ChangeType
  oldValue : ContentValue
  newValue : ContentValue
  timestamp : Int
  imageId : Option String := none
  optimizedImagePath : Option String := none
  imageSrcset : Option String := none
  imageAltText : Option String := none
  deriving DecidableEq, Repr

/-- TS `EditorChange` from editorStore.ts. -/
structure EditorChange where
  id : String
  elementId : String
  type : ChangeType
  oldValue : ContentValue
  newValue : ContentValue
  timestamp : Int
  description : String
  scopeName : Option String := none
  deriving DecidableEq, Repr

/-- TS `EditorHistoryState`: the past/present/future undo pattern. -/
structure EditorHistoryState where
  past : List (List EditorChange)
  present : List EditorChange
  future : List (List EditorChange)
  deriving DecidableEq, Repr

inductive EditingMode where
  | preview
  | edit
  deriving DecidableEq, Repr

/-- TS `EditorState` from editorStore.ts. -/
structure EditorState where
  siteId : Option String
  draftChanges : SMap ContentUpdate
  originalContent : SMap ContentValue
  publishedContent : SMap ContentValue
  history : EditorHistoryState
  isSaving : Bool
  isExecutingCommand : Bool
  selectedElement : Option String
  editingMode : EditingMode
  iframeReady : Bool
  lastSavedAt : Option Int
  isLoadingDrafts : Bool
  hasUnsavedEdits : Bool
  hasUnpublishedChanges : Bool
  deriving DecidableEq, Repr

/-- The store's `initialState`. -/
def initialState : EditorState :=
  { siteId := none
    draftChanges := []
    originalContent := []
    publishedContent := []
    history := { past := [], present := [], future := [] }
    isSaving := false
    isExecutingCommand := false
    selectedElement := none
    editingMode := .edit
    iframeReady := false
    lastSavedAt := none
    isLoadingDrafts := false
    hasUnsavedEdits := false
    hasUnpublishedChanges := false }

/-- The `initializeEditor` action: reset maps, history, selection and draft
tracking for a site (the handler registration has no effect on the state). -/
def initEditor (siteId : String) (s : EditorState) : EditorState :=
  { s with
    siteId := some siteId
    draftChanges := []
    originalContent := []
    publishedContent := []
    history := { past := [], present := [], future := [] }
    selectedElement := none
    iframeReady := false
    lastSavedAt := none
    isLoadingDrafts := false
    hasUnsavedEdits := false
    hasUnpublishedChanges := false }

/-- JS `String(v)` on a content value. -/
def cvToString : ContentValue → String
  | .str s => s
  | .bool b => if b then "true" else "false"
  | .num n => toString n

/-- The 30-character truncation used for text descriptions
(`slice(0,30)` plus an ellipsis when longer); non-strings go through
`String(v)` untruncated, exactly as in the source. -/
def truncateVal (v : ContentValue) : String :=
  match v with
  | .str s => s.take 30 ++ (if s.length > 30 then "..." else "")
  | .bool b => if b then "true" else "false"
  | .num n => toString n

/-- `JSON.stringify` on the scalar content values (inner-quote escaping is
not modelled; the program only ever displays these strings). -/
def jsonStringify (v : ContentValue) : String :=
  match v with
  | .str s => "\"" ++ s ++ "\""
  | .bool b => if b then "true" else "false"
  | .num n => toString n

/-- `createChangeDescription` from editorStore.ts. -/
def createChangeDescription (c : EditorChange) : String :=
  match c.type with
  | .text =>
    "Change \"" ++ c.elementId ++ "\" from \"" ++ truncateVal c.oldValue
      ++ "\" to \"" ++ truncateVal c.newValue ++ "\""
  | .config =>
    "Change " ++ c.elementId ++ " from " ++ jsonStringify c.oldValue
      ++ " to " ++ jsonStringify c.newValue
  | .toggle =>
    "Change " ++ c.elementId ++ " from " ++ jsonStringify c.oldValue
      ++ " to " ++ jsonStringify c.newValue
  | .image =>
    "Change \"" ++ c.elementId ++ "\" image from \"" ++ cvToString c.oldValue
      ++ "\" to \"" ++ cvToString c.newValue ++ "\""

/-- Build the `EditorChange` recorded by `addContentChange`; the generated
change id (`Date.now()`/`Math.random()` based in the source) is passed in
as the parameter `cid`. -/
def mkChange (cid : String) (u : ContentUpdate) : EditorChange :=
  let base : EditorChange :=
    { id := cid
      elementId := u.elementId
      type := u.type
      oldValue := u.oldValue
      newValue := u.newValue
      timestamp := u.timestamp
      description := ""
      scopeName := some u.elementId }
  { base with description := createChangeDescription base }

/-- The `updatedChange` stored in the draft map by `addContentChange`: the
incoming update with the already-published value substituted as `oldValue`
for display purposes (JS `published.get(id) || update.oldValue`, read from
the pre-update published map). -/
def updatedOf (u : ContentUpdate) (s : EditorState) : ContentUpdate :=
  { u with oldValue := jsOrCV (mapGet s.publishedContent u.elementId) u.oldValue }

/-- `addContentChange` from editorStore.ts: seed Original/Published on first
sight of the element, overwrite the Draft entry (with the published value
substituted as the displayed oldValue when truthy), push a fresh single-change
history entry, clear `future`, and set both dirty flags. -/
def addContentChange (u : ContentUpdate) (cid : String) (s : EditorState) : EditorState :=
  let change := mkChange cid u
  let newOriginalContent :=
    if mapHas s.originalContent u.elementId then s.originalContent
    else mapSet s.originalContent u.elementId u.oldValue
  let newPublishedContent :=
    if mapHas s.publishedContent u.elementId then s.publishedContent
    else mapSet s.publishedContent u.elementId u.oldValue
  let newDraftChanges := mapSet s.draftChanges u.elementId (updatedOf u s)
  { s with
    draftChanges := newDraftChanges
    originalContent := newOriginalContent
    publishedContent := newPublishedContent
    history :=
      { past := s.history.past ++ [s.history.present]
        present := [change]
        future := [] }
    hasUnsavedEdits := true
    hasUnpublishedChanges := true }

/-- `markDraftsSaved`: stamp the save time and clear `hasUnsavedEdits`
(the source deliberately keeps `hasUnpublishedChanges` set). -/
def markDraftsSaved (now : Int) (s : EditorState) : EditorState :=
  { s with lastSavedAt := some now, hasUnsavedEdits := false }

/-- `markDraftsPublished`: copy every draft value into the published map and
clear `hasUnpublishedChanges`. -/
def markDraftsPublished (s : EditorState) : EditorState :=
  let newPublishedContent :=
    s.draftChanges.foldl (fun m kc => mapSet m kc.1 kc.2.newValue) s.publishedContent
  { s with publishedContent := newPublishedContent, hasUnpublishedChanges := false }

/-- `clearEditor`: wipe maps, history and both dirty flags. -/
def clearEditor (s : EditorState) : EditorState :=
  { s with
    draftChanges := []
    originalContent := []
    publishedContent := []
    history := { past := [], present := [], future := [] }
    hasUnsavedEdits := false
    hasUnpublishedChanges := false }

/-- The `setState` that starts an undo/redo in useEditorState.ts:
`isExecutingCommand := true` for the duration of the command. -/
def beginCommand (s : EditorState) : EditorState :=
  { s with isExecutingCommand := true }

/-- The draft-map rewrite performed by `undo`: every change in the entry
being undone whose element still has a draft entry gets that entry's
`newValue` reverted to the change's `oldValue` (entries are never created). -/
def undoDraftUpdate (now : Int) (present : List EditorChange)
    (draft : SMap ContentUpdate) : SMap ContentUpdate :=
  present.foldl
    (fun m c =>
      match mapGet m c.elementId with
      | some existing =>
        mapSet m c.elementId { existing with newValue := c.oldValue, timestamp := now }
      | none => m)
    draft

/-- The body of `undo` (useEditorState.ts), applied after the guards pass and
the in-flight flag has been set: pop the tail of `past` into `present`, push
the prior `present` onto the front of `future`, revert draft entries, and
clear the in-flight flag. -/
def undoCore (now : Int) (t : EditorState) : EditorState :=
  let previousChanges := (t.history.past.getLast?).getD []
  let newPast := t.history.past.dropLast
  let newFuture := t.history.present :: t.history.future
  let newDraftChanges := undoDraftUpdate now t.history.present t.draftChanges
  { t with
    draftChanges := newDraftChanges
    history := { past := newPast, present := previousChanges, future := newFuture }
    isExecutingCommand := false }

/-- `undo`: no-op when `past` is empty (`length === 0`) or a command is
already in flight. -/
def undo (now : Int) (s : EditorState) : EditorState :=
  if s.history.past = [] ∨ s.isExecutingCommand = true then s
  else undoCore now (beginCommand s)

/-- The draft-map rewrite performed by `redo`: replayed changes overwrite an
existing draft entry's `newValue`, or create a fresh entry when none exists. -/
def redoDraftUpdate (now : Int) (next : List EditorChange)
    (draft : SMap ContentUpdate) : SMap ContentUpdate :=
  next.foldl
    (fun m c =>
      match mapGet m c.elementId with
      | some existing =>
        mapSet m c.elementId { existing with newValue := c.newValue, timestamp := now }
      | none =>
        mapSet m c.elementId
          { elementId := c.elementId
            type := c.type
            oldValue := c.oldValue
            newValue := c.newValue
            timestamp := now })
    draft

/-- The body of `redo` (useEditorState.ts) after the guards pass. -/
def redoCore (now : Int) (t : EditorState) : EditorState :=
  let nextChanges := (t.history.future.head?).getD []
  let newPast := t.history.past ++ [t.history.present]
  let newFuture := t.history.future.tail
  let newDraftChanges := redoDraftUpdate now nextChanges t.draftChanges
  { t with
    draftChanges := newDraftChanges
    history := { past := newPast, present := nextChanges, future := newFuture }
    isExecutingCommand := false }

/-- `redo`: no-op when `future` is empty (`length === 0`) or a command is
already in flight. -/
def redo (now : Int) (s : EditorState) : EditorState :=
  if s.history.future = [] ∨ s.isExecutingCommand = true then s
  else redoCore now (beginCommand s)

/-- The payload of an inbound `CONTENT_CHANGED` message as the handler in
useEditorState.ts reads it; absent fields are `none`, and the type tag is
the raw string from the wire (the handler defaults it to `"text"`). -/
structure ContentChangedPayload where
  elementId : Option String := none
  newContent : Option ContentValue := none
  oldContent : Option ContentValue := none
  type : Option String := none
  deriving DecidableEq, Repr

/-- The resolved old value of a `CONTENT_CHANGED` report: the message's
`oldContent` when provided, else the element's current draft `newValue`,
else the empty string. -/
def resolvedOldValue (p : ContentChangedPayload) (s : EditorState) (eid : String) : ContentValue :=
  match p.oldContent with
  | some oc => oc
  | none =>
    match mapGet s.draftChanges eid with
    | some d => d.newValue
    | none => .str ""

/-- `handleContentChanged` from useEditorState.ts: ignore reports while a
command is in flight, require a truthy `elementId` and a defined
`newContent`, skip when the resolved old value equals the new content, and
otherwise record the change through `addContentChange` according to the
type tag (unknown tags record nothing). -/
def handleContentChanged (p : ContentChangedPayload) (now : Int) (cid : String)
    (s : EditorState) : EditorState :=
  if s.isExecutingCommand then s
  else
    match p.elementId, p.newContent with
    | some eid, some nc =>
      if eid = "" then s
      else
        let actualOldValue := resolvedOldValue p s eid
        if actualOldValue = nc then s
        else
          match p.type.getD "text" with
          | "text" =>
            addContentChange
              { elementId := eid, type := .text, oldValue := actualOldValue
                newValue := nc, timestamp := now } cid s
          | "config" =>
            addContentChange
              { elementId := eid, type := .config, oldValue := actualOldValue
                newValue := nc, timestamp := now } cid s
          | "toggle" =>
            addContentChange
              { elementId := eid, type := .toggle, oldValue := actualOldValue
                newValue := nc, timestamp := now } cid s
          | "image" =>
            addContentChange
              { elementId := eid, type := .image, oldValue := actualOldValue
                newValue := nc, timestamp := now } cid s
          | _ => s
    | _, _ => s

/-- A persisted content block as `loadDraftContent` reads it
(`DraftContentBlock` in editorStore.ts); `publishedAt` is modelled as the
epoch time the recorded date string denotes, when present. -/
structure DraftContentBlock where
  value : String
  publishedValue : Option String := none
  draftValue : Option String := none
  status : String
  hasUnpublishedChanges : Bool
  publishedAt : Option Int := none
  deriving DecidableEq, Repr

/-- The import filter of `loadDraftContent`: only blocks with unpublished
changes or draft status are materialized into the in-memory maps. -/
def importCond (b : DraftContentBlock) : Bool :=
  b.hasUnpublishedChanges || b.status == "draft"

/-- The `oldValue` chosen by `loadDraftContent` for an imported block:
published value when both published and draft content exist, empty string
for never-published draft content, else the status-based fallback on the
persisted current value. -/
def reconcileOldValue (b : DraftContentBlock) : String :=
  if jsTruthyStr b.publishedValue && jsTruthyStr b.draftValue then
    jsOrStr b.publishedValue ""
  else if jsTruthyStr b.draftValue && !jsTruthyStr b.publishedValue then
    ""
  else if b.status == "published" then b.value else ""

/-- The `newValue` chosen by `loadDraftContent` for an imported block. -/
def reconcileNewValue (b : DraftContentBlock) : String :=
  if jsTruthyStr b.publishedValue && jsTruthyStr b.draftValue then
    jsOrStr b.draftValue ""
  else if jsTruthyStr b.draftValue && !jsTruthyStr b.publishedValue then
    jsOrStr b.draftValue ""
  else b.value

/-- The `ContentUpdate` that `loadDraftContent` places in the draft map for
an imported block (`now` stands for `Date.now()` when the block has no
recorded publish time). -/
def reconcileUpdate (k : String) (b : DraftContentBlock) (now : Int) : ContentUpdate :=
  { elementId := k
    type := .text
    oldValue := .str (reconcileOldValue b)
    newValue := .str (reconcileNewValue b)
    timestamp := b.publishedAt.getD now }

/-- The three maps rebuilt by `loadDraftContent`. -/
structure ReconcileResult where
  draftChanges : SMap ContentUpdate
  originalContent : SMap ContentValue
  publishedContent : SMap ContentValue
  deriving DecidableEq, Repr

/-- One iteration of the block loop in `loadDraftContent`. -/
def reconcileStep (now : Int) (r : ReconcileResult)
    (kb : String × DraftContentBlock) : ReconcileResult :=
  if importCond kb.2 then
    { draftChanges := mapSet r.draftChanges kb.1 (reconcileUpdate kb.1 kb.2 now)
      originalContent := mapSet r.originalContent kb.1 (.str (jsOrStr kb.2.publishedValue ""))
      publishedContent := mapSet r.publishedContent kb.1 (.str (jsOrStr kb.2.publishedValue "")) }
  else r

/-- The block loop of `loadDraftContent` over all pages, flattened to the
list of (blockKey, block) pairs in iteration order, starting from the three
fresh empty maps. -/
def reconcileBlocks (blocks : List (String × DraftContentBlock)) (now : Int) : ReconcileResult :=
  blocks.foldl (reconcileStep now) { draftChanges := [], originalContent := [], publishedContent := [] }

/-- The payload of an outbound editor→preview message (`EditorMessage.payload`
in message-types.ts). -/
structure EditorMsgPayload where
  siteId : Option String := none
  editorMode : Option Bool := none
  selector : Option String := none
  content : Option ContentValue := none
  mode : Option String := none
  elementId : Option String := none
  deriving DecidableEq, Repr

/-- A stamped outbound editor→preview message. -/
structure EditorMessage where
  type : String
  payload : EditorMsgPayload
  messageId : String
  timestamp : Int
  deriving DecidableEq, Repr

/-- The argument of `sendToIframe`: a message before the bridge stamps
`messageId` and `timestamp`. -/
structure EditorMessageDraft where
  type : String
  payload : EditorMsgPayload
  deriving DecidableEq, Repr

/-- The stamping done by `sendToIframe`; the generated id and the clock
reading are environment inputs, passed as parameters. -/
def stampMessage (m : EditorMessageDraft) (mid : String) (ts : Int) : EditorMessage :=
  { type := m.type, payload := m.payload, messageId := mid, timestamp := ts }

/-- An inbound message as the bridge's window listener reads `event.data`:
each envelope field may be missing; the payload is carried opaquely (the
bridge only inspects the envelope and passes the message through). -/
structure InboundMessage where
  type : Option String := none
  messageId : Option String := none
  timestamp : Option Int := none
  payload : String := ""
  deriving DecidableEq, Repr

/-- JS truthiness of a possibly-undefined number (`0` is falsy). -/
def jsTruthyInt (x : Option Int) : Bool :=
  match x with
  | some n => !(n == 0)
  | none => false

/-- The structural validation in the bridge's listener:
`!message.type || !message.messageId || !message.timestamp` drops the
message. -/
def validEnvelope (m : InboundMessage) : Bool :=
  jsTruthyStr m.type && jsTruthyStr m.messageId && jsTruthyInt m.timestamp

/-- The state of the `IframeBridge` singleton (iframe-bridge.ts).
`handlers` records the message types with a registered handler; `posted`
and `dispatched` record, in order, the messages actually posted to the
frame and the inbound messages handed to a registered handler. -/
structure BridgeState where
  handlers : List String
  allowedOrigins : List String
  messageQueue : List EditorMessage
  hasFrame : Bool
  isReady : Bool
  isInitialized : Bool
  posted : List EditorMessage
  dispatched : List InboundMessage
  deriving DecidableEq, Repr

/-- `setAllowedOrigins`. -/
def setAllowedOrigins (origins : List String) (b : BridgeState) : BridgeState :=
  { b with allowedOrigins := origins }

/-- `sendMessage`: post to the frame when the ref is bound and has a
content window, otherwise drop with a logged error. -/
def sendMessage (m : EditorMessage) (b : BridgeState) : BridgeState :=
  if b.hasFrame then { b with posted := b.posted ++ [m] } else b

/-- `sendToIframe`: stamp the message, then queue it while the frame has not
signaled readiness, or post it directly. -/
def sendToIframe (m : EditorMessageDraft) (mid : String) (ts : Int)
    (b : BridgeState) : BridgeState :=
  if !b.isInitialized then b
  else
    let full := stampMessage m mid ts
    if !b.isReady then { b with messageQueue := b.messageQueue ++ [full] }
    else sendMessage full b

/-- `flushMessageQueue`: shift every queued message through `sendMessage`
(all posted when the frame is bound, all dropped otherwise) and leave the
queue empty. -/
def flushMessageQueue (b : BridgeState) : BridgeState :=
  { b with
    messageQueue := []
    posted := b.posted ++ (if b.hasFrame then b.messageQueue else []) }

/-- The bridge listener's behavior after the origin check: envelope
validation, the `IFRAME_READY` ready/flush step, then dispatch to the
registered handler for the message type, if any. -/
def processInbound (m : InboundMessage) (b : BridgeState) : BridgeState :=
  if !(validEnvelope m) then b
  else
    let b1 :=
      if m.type = some "IFRAME_READY" then flushMessageQueue { b with isReady := true }
      else b
    if b1.handlers.contains (m.type.getD "") then
      { b1 with dispatched := b1.dispatched ++ [m] }
    else b1

/-- The full window `message` listener installed by `setupMessageListener`:
drop messages from unauthorized origins when an allow-list is configured,
then process the message. -/
def handleWindowMessage (origin : String) (m : InboundMessage) (b : BridgeState) : BridgeState :=
  if !b.allowedOrigins.isEmpty && !(b.allowedOrigins.contains origin) then b
  else processInbound m b

/-- Fold `sendToIframe` over a list of (draft, id, clock) send requests. -/
def sendAll (msgs : List (EditorMessageDraft × String × Int)) (b : BridgeState) : BridgeState :=
  msgs.foldl (fun st x => sendToIframe x.1 x.2.1 x.2.2 st) b

/-- An element of the previewed document as the preview-side agent sees it:
its editor marker attributes, tag, text content, image source, the
selection marker attribute, the tooltip title, and the inline-edit flag.
An empty `editorId` models an absent `data-editor-id` attribute. -/
structure DomElement where
  editorId : String
  editorType : String
  editable : Bool
  tagName : String
  text : String
  src : String
  selectedMarker : Bool
  title : String
  contentEditable : Bool
  deriving DecidableEq, Repr

/-- The previewed document, in document order. -/
abbrev Dom := List DomElement

/-- `document.querySelector` on a `data-editor-id` selector: the first
matching element. -/
def domFind (d : Dom) (eid : String) : Option DomElement :=
  d.find? (fun e => e.editorId == eid)

/-- Rewrite the first element with the given `data-editor-id`. -/
def domUpdate (d : Dom) (eid : String) (f : DomElement → DomElement) : Dom :=
  match d with
  | [] => []
  | e :: rest => if e.editorId = eid then f e :: rest else e :: domUpdate rest eid f

/-- A preview→editor message, reduced to the fields the agent ever fills
(the type tag, the affected element and the sent content). -/
structure AgentOutMsg where
  type : String
  elementId : String := ""
  content : String := ""
  deriving DecidableEq, Repr

/-- The commands the agent's `handleEditorMessage` switch distinguishes;
`other` covers every unrecognized type tag (the switch has no default
case, so those do nothing). `selectElement` carries the element id the
selector designates. -/
inductive AgentInMsg where
  | editorReady
  | selectElement (elementId : String)
  | updateContent (elementId : String) (content : String)
  | enterEditMode (elementId : String)
  | exitEditMode
  | other (type : String)
  deriving DecidableEq, Repr

/-- The state of `ClientEditorBridge` (editor-bridge.ts) together with the
document it manipulates and the messages it has posted to `window.parent`. -/
structure AgentState where
  isInEditorMode : Bool
  editorOrigin : Option String
  selectedElement : Option String
  dom : Dom
  outbox : List AgentOutMsg
  deriving DecidableEq, Repr

/-- `sendToEditor`: posts only while in editor mode (`window.parent` always
exists, so the flag is the effective guard). -/
def sendToEditor (m : AgentOutMsg) (a : AgentState) : AgentState :=
  if a.isInEditorMode then { a with outbox := a.outbox ++ [m] } else a

/-- The constructor plus `detectEditorMode`: when the document is embedded
(`window.parent !== window`) the agent enters editor mode and announces
`IFRAME_READY`; otherwise it changes nothing. -/
def initAgent (embedded : Bool) (d : Dom) : AgentState :=
  let a : AgentState :=
    { isInEditorMode := false, editorOrigin := none, selectedElement := none
      dom := d, outbox := [] }
  if embedded then
    sendToEditor { type := "IFRAME_READY" } { a with isInEditorMode := true }
  else a

/-- `selectElement`: clear the selection marker on the previously selected
element, mark the new one, record it, and report `ELEMENT_SELECTED`. -/
def agentSelect (eid : String) (a : AgentState) : AgentState :=
  match domFind a.dom eid with
  | none => a
  | some e =>
    let d1 :=
      match a.selectedElement with
      | some prev => domUpdate a.dom prev (fun el => { el with selectedMarker := false })
      | none => a.dom
    let d2 := domUpdate d1 eid (fun el => { el with selectedMarker := true })
    sendToEditor { type := "ELEMENT_SELECTED", elementId := e.editorId }
      { a with dom := d2, selectedElement := some eid }

/-- `deselectElement`: clear the marker on the selected element, if any, and
report `ELEMENT_DESELECTED` (sent even when nothing was selected). -/
def agentDeselect (a : AgentState) : AgentState :=
  let a1 :=
    match a.selectedElement with
    | some prev =>
      { a with
        dom := domUpdate a.dom prev (fun el => { el with selectedMarker := false })
        selectedElement := none }
    | none => a
  sendToEditor { type := "ELEMENT_DESELECTED" } a1

/-- `updateElementContent`: image elements get their `src` replaced, others
their text content, and a `CONTENT_CHANGED` confirmation is sent; an
unknown element id does nothing. -/
def agentUpdateContent (eid content : String) (a : AgentState) : AgentState :=
  match domFind a.dom eid with
  | none => a
  | some e =>
    let d1 :=
      if e.editorType == "image" && e.tagName == "IMG" then
        domUpdate a.dom eid (fun el => { el with src := content })
      else
        domUpdate a.dom eid (fun el => { el with text := content })
    sendToEditor { type := "CONTENT_CHANGED", elementId := eid, content := content }
      { a with dom := d1 }

/-- `highlightEditableElements`: a tooltip title on every editable block. -/
def agentHighlight (a : AgentState) : AgentState :=
  { a with
    dom := a.dom.map (fun el => if el.editable then { el with title := "Click to edit" } else el) }

/-- `enterEditMode`: text blocks become directly editable in place. -/
def agentEnterEdit (eid : String) (a : AgentState) : AgentState :=
  match domFind a.dom eid with
  | some e =>
    if e.editorType == "text" then
      { a with dom := domUpdate a.dom eid (fun el => { el with contentEditable := true }) }
    else a
  | none => a

/-- `exitEditMode`: every inline-editing element is closed and its final
text reported via `CONTENT_CHANGED` (skipping elements without an id). -/
def agentExitEdit (a : AgentState) : AgentState :=
  let editing := a.dom.filter (fun el => el.contentEditable)
  let d1 := a.dom.map (fun el =>
    if el.contentEditable then { el with contentEditable := false } else el)
  editing.foldl
    (fun st el =>
      if el.editorId = "" then st
      else sendToEditor { type := "CONTENT_CHANGED", elementId := el.editorId, content := el.text } st)
    { a with dom := d1 }

/-- `handleEditorMessage`: the agent's command switch. -/
def handleEditorMessage (m : AgentInMsg) (a : AgentState) : AgentState :=
  match m with
  | .editorReady => agentHighlight { a with isInEditorMode := true }
  | .selectElement eid => agentSelect eid a
  | .updateContent eid c => agentUpdateContent eid c a
  | .enterEditMode eid => agentEnterEdit eid a
  | .exitEditMode => agentExitEdit a
  | .other _ => a

/-- Substring test on character lists, for JS `String.includes`. -/
def listContainsSub (pat s : List Char) : Bool :=
  match s with
  | [] => pat.isEmpty
  | _ :: rest => pat.isPrefixOf s || listContainsSub pat rest

/-- JS `s.includes(pat)`. -/
def strIncludes (s pat : String) : Bool :=
  listContainsSub pat.toList s.toList

/-- The agent's window `message` listener: capture the first origin that
looks like the local editor, drop messages from other origins once one is
captured, and hand everything else to `handleEditorMessage`. -/
def agentOnMessage (origin : String) (m : AgentInMsg) (a : AgentState) : AgentState :=
  let a1 :=
    if a.editorOrigin.isNone && strIncludes origin "localhost:3000" then
      { a with editorOrigin := some origin }
    else a
  match a1.editorOrigin with
  | some eo => if origin ≠ eo then a1 else handleEditorMessage m a1
  | none => handleEditorMessage m a1

/-- What a document click resolves to: a click whose closest
`data-editable` ancestor is the given element, or a click on a background
area satisfying the deselection conditions. -/
inductive ClickTarget where
  | onEditable (elementId : String)
  | background
  deriving DecidableEq, Repr

/-- The agent's document click listener: inert outside editor mode;
otherwise clicking an editable block selects it and a background click
deselects. -/
def agentClick (t : ClickTarget) (a : AgentState) : AgentState :=
  if !a.isInEditorMode then a
  else
    match t with
    | .onEditable eid => agentSelect eid a
    | .background => agentDeselect a

/-- The events the agent can observe after construction. -/
inductive AgentEvent where
  | click (t : ClickTarget)
  | message (origin : String) (m : AgentInMsg)
  deriving DecidableEq, Repr

def AgentEvent.isClick : AgentEvent → Bool
  | .click _ => true
  | .message _ _ => false

/-- One observed event. -/
def agentStep (ev : AgentEvent) (a : AgentState) : AgentState :=
  match ev with
  | .click t => agentClick t a
  | .message origin m => agentOnMessage origin m a

/-- A whole sequence of observed events. -/
def agentRun (evs : List AgentEvent) (a : AgentState) : AgentState :=
  evs.foldl (fun st ev => agentStep ev st) a

/-- A sequence of recorded changes, each with its generated change id. -/
def applyChanges (us : List (ContentUpdate × String)) (s : EditorState) : EditorState :=
  us.foldl (fun st x => addContentChange x.1 x.2 st) s

/-- A persisted block that edits existing published content: published
value "Hello", draft value "Hello there", unpublished changes pending. -/
def exampleBlockEdited : DraftContentBlock :=
  { value := "Hello there"
    publishedValue := some "Hello"
    draftValue := some "Hello there"
    status := "draft"
    hasUnpublishedChanges := true }

/-- A persisted block holding never-published draft content "New". -/
def exampleBlockNew : DraftContentBlock :=
  { value := "New"
    draftValue := some "New"
    status := "draft"
    hasUnpublishedChanges := true }

/-- A one-element previewed document: an editable text block. -/
def exampleDom : Dom :=
  [{ editorId := "hero"
     editorType := "text"
     editable := true
     tagName := "H1"
     text := "Hi"
     src := ""
     selectedMarker := false
     title := ""
     contentEditable := false }]

/-- A bridge bound to a frame, before readiness, with one handler
registered and no allow-list configured. -/
def exampleBridge : BridgeState :=
  { handlers := ["CONTENT_CHANGED"]
    allowedOrigins := []
    messageQueue := []
    hasFrame := true
    isReady := false
    isInitialized := true
    posted := []
    dispatched := [] }

/-- The same bridge with an allow-list configured. -/
def exampleBridgeAllowed : BridgeState :=
  setAllowedOrigins ["http://localhost:3001"] exampleBridge

/-- Three sends issued before the frame signals readiness. -/
def exampleSends : List (EditorMessageDraft × String × Int) :=
  [({ type := "UPDATE_CONTENT"
      payload := { elementId := some "hero", content := some (.str "A") } }, "m1", 1),
   ({ type := "SELECT_ELEMENT"
      payload := { selector := some "#hero" } }, "m2", 2),
   ({ type := "ENTER_EDIT_MODE"
      payload := { elementId := some "hero" } }, "m3", 3)]

/-- A well-formed `IFRAME_READY` message from the frame. -/
def exampleReady : InboundMessage :=
  { type := some "IFRAME_READY", messageId := some "r1", timestamp := some 4 }

/-- A well-formed `CONTENT_CHANGED` message from the frame. -/
def exampleInbound : InboundMessage :=
  { type := some "CONTENT_CHANGED", messageId := some "m9", timestamp := some 8 }

/- ------------------------------------------------------------------ -/
/- Theorems                                                            -/
/- ------------------------------------------------------------------ -/

theorem mapGet_mapSet_self (m : SMap α) (k : String) (v : α) :
    mapGet (mapSet m k v) k = some v := by
  induction m with
  | nil => simp [mapGet, mapSet]
  | cons hd tl ih =>
    obtain ⟨k2, w⟩ := hd
    by_cases h : k2 = k
    · simp [mapGet, mapSet, h]
    · simp [mapGet, mapSet, h, ih]

theorem mapGet_mapSet_ne (m : SMap α) (k k2 : String) (v : α) (h : k ≠ k2) :
    mapGet (mapSet m k v) k2 = mapGet m k2 := by
  induction m with
  | nil => simp [mapGet, mapSet, h]
  | cons hd tl ih =>
    obtain ⟨k3, w⟩ := hd
    by_cases h3 : k3 = k
    · subst h3
      simp [mapGet, mapSet, h]
    · simp only [mapSet, if_neg h3]
      by_cases h4 : k3 = k2
      · simp [mapGet, h4]
      · simp [mapGet, h4, ih]

theorem addContentChange_history (u : ContentUpdate) (cid : String) (s : EditorState) :
    (addContentChange u cid s).history =
      { past := s.history.past ++ [s.history.present]
        present := [mkChange cid u]
        future := [] } := rfl

theorem addContentChange_flag (u : ContentUpdate) (cid : String) (s : EditorState) :
    (addContentChange u cid s).isExecutingCommand = s.isExecutingCommand := rfl

theorem addContentChange_draft (u : ContentUpdate) (cid : String) (s : EditorState) :
    (addContentChange u cid s).draftChanges =
      mapSet s.draftChanges u.elementId (updatedOf u s) := rfl

theorem applyChanges_past_length (us : List (ContentUpdate × String)) (s : EditorState) :
    (applyChanges us s).history.past.length = s.history.past.length + us.length := by
  induction us generalizing s with
  | nil => simp [applyChanges]
  | cons x xs ih =>
    have h1 : applyChanges (x :: xs) s = applyChanges xs (addContentChange x.1 x.2 s) := rfl
    rw [h1, ih, addContentChange_history]
    simp
    omega

/-- C1 counterexample: from a freshly initialized editor state, a single
recorded change (N = 1, trivially distinct elements) leaves
`past.length = 1`, not `N - 1 = 0` — `addContentChange` pushes the
initial empty `present` entry onto `past`. -/
theorem claim1_counterexample :
    ¬ ((addContentChange
          { elementId := "a", type := .text, oldValue := .str "x"
            newValue := .str "y", timestamp := 1 }
          "c1" (initEditor "site" initialState)).history.past.length = 1 - 1) := by
  decide

/-- C1 amended: starting from a freshly initialized editor state, after a
sequence of N >= 1 changes to N distinct elementIds recorded via
`addContentChange` (written `us ++ [(u, cid)]`, so N = us.length + 1),
the history satisfies `past.length = N` (not N - 1: the initial empty
`present` is the first `past` entry), `present` is the single-entry list
holding the Nth change, and `future` is empty. -/
theorem claim1_amended_history_shape (s : EditorState) (sid : String)
    (us : List (ContentUpdate × String)) (u : ContentUpdate) (cid : String)
    (_hdistinct : ((us ++ [(u, cid)]).map (fun x => x.1.elementId)).Nodup) :
    (applyChanges (us ++ [(u, cid)]) (initEditor sid s)).history.past.length = us.length + 1 ∧
    (applyChanges (us ++ [(u, cid)]) (initEditor sid s)).history.present = [mkChange cid u] ∧
    (applyChanges (us ++ [(u, cid)]) (initEditor sid s)).history.future = [] := by
  have hsplit : applyChanges (us ++ [(u, cid)]) (initEditor sid s)
      = addContentChange u cid (applyChanges us (initEditor sid s)) := by
    simp [applyChanges, List.foldl_append]
  refine ⟨?_, ?_, ?_⟩
  · rw [hsplit, addContentChange_history]
    have h2 := applyChanges_past_length us (initEditor sid s)
    have h0 : (initEditor sid s).history.past.length = 0 := rfl
    rw [h0, Nat.zero_add] at h2
    simp [h2]
  · rw [hsplit, addContentChange_history]
  · rw [hsplit, addContentChange_history]

/-- Witness for C1 amended: two changes to distinct elements "a" and "b"
leave `past.length = 2`, `present` holding the second change, `future`
empty. -/
theorem claim1_amended_history_shape_witness :
    (([({ elementId := "a", type := .text, oldValue := .str "x"
          newValue := .str "y", timestamp := 1 : ContentUpdate }, "c1")] ++
        [({ elementId := "b", type := .text, oldValue := .str "p"
            newValue := .str "q", timestamp := 2 : ContentUpdate }, "c2")]).map
        (fun x => x.1.elementId)).Nodup ∧
    ((applyChanges
        ([({ elementId := "a", type := .text, oldValue := .str "x"
             newValue := .str "y", timestamp := 1 : ContentUpdate }, "c1")] ++
          [({ elementId := "b", type := .text, oldValue := .str "p"
              newValue := .str "q", timestamp := 2 : ContentUpdate }, "c2")])
        (initEditor "site" initialState)).history.past.length = 1 + 1 ∧
      (applyChanges
        ([({ elementId := "a", type := .text, oldValue := .str "x"
             newValue := .str "y", timestamp := 1 : ContentUpdate }, "c1")] ++
          [({ elementId := "b", type := .text, oldValue := .str "p"
              newValue := .str "q", timestamp := 2 : ContentUpdate }, "c2")])
        (initEditor "site" initialState)).history.present =
        [mkChange "c2"
          { elementId := "b", type := .text, oldValue := .str "p"
            newValue := .str "q", timestamp := 2 }] ∧
      (applyChanges
        ([({ elementId := "a", type := .text, oldValue := .str "x"
             newValue := .str "y", timestamp := 1 : ContentUpdate }, "c1")] ++
          [({ elementId := "b", type := .text, oldValue := .str "p"
              newValue := .str "q", timestamp := 2 : ContentUpdate }, "c2")])
        (initEditor "site" initialState)).history.future = []) :=
  ⟨by decide, claim1_amended_history_shape initialState "site" _ _ _ (by decide)⟩

theorem mkChange_elementId (cid : String) (u : ContentUpdate) :
    (mkChange cid u).elementId = u.elementId := rfl

theorem mkChange_oldValue (cid : String) (u : ContentUpdate) :
    (mkChange cid u).oldValue = u.oldValue := rfl

theorem mkChange_newValue (cid : String) (u : ContentUpdate) :
    (mkChange cid u).newValue = u.newValue := rfl

theorem beginCommand_history (s : EditorState) :
    (beginCommand s).history = s.history := rfl

theorem beginCommand_draft (s : EditorState) :
    (beginCommand s).draftChanges = s.draftChanges := rfl

theorem undoCore_history (now : Int) (t : EditorState) :
    (undoCore now t).history =
      { past := t.history.past.dropLast
        present := (t.history.past.getLast?).getD []
        future := t.history.present :: t.history.future } := rfl

theorem undoCore_draft (now : Int) (t : EditorState) :
    (undoCore now t).draftChanges = undoDraftUpdate now t.history.present t.draftChanges := rfl

theorem undoCore_flag (now : Int) (t : EditorState) :
    (undoCore now t).isExecutingCommand = false := rfl

theorem redoCore_history (now : Int) (t : EditorState) :
    (redoCore now t).history =
      { past := t.history.past ++ [t.history.present]
        present := (t.history.future.head?).getD []
        future := t.history.future.tail } := rfl

theorem redoCore_draft (now : Int) (t : EditorState) :
    (redoCore now t).draftChanges = redoDraftUpdate now ((t.history.future.head?).getD []) t.draftChanges := rfl

/-- C2 counterexample: the claim asserts that after undo and then redo "the
History pointers differ from the never-undone state"; on the code they
coincide exactly. For a concrete change recorded from a fresh state, the
history after undo followed by redo is equal to the history immediately
after recording the change. -/
theorem claim2_counterexample :
    (redo 7 (undo 6 (addContentChange
        { elementId := "a", type := .text, oldValue := .str "x"
          newValue := .str "y", timestamp := 1 }
        "c1" (initEditor "site" initialState)))).history =
      (addContentChange
        { elementId := "a", type := .text, oldValue := .str "x"
          newValue := .str "y", timestamp := 1 }
        "c1" (initEditor "site" initialState)).history := by
  set_option maxRecDepth 4096 in decide

/-- C2 amended: for every change recorded via `addContentChange`, undo then
redo restores the Draft map entry for the change's elementId to
`newValue = u.newValue` (undo followed by redo is the identity on the
recorded newValue); moreover the History after undo + redo coincides with
the never-undone state (only the draft entry's timestamp is refreshed). -/
theorem claim2_amended_undo_redo_identity (s : EditorState) (u : ContentUpdate)
    (cid : String) (now1 now2 : Int) :
    (mapGet (redo now2 (undo now1 (addContentChange u cid s))).draftChanges u.elementId).map
        (fun d => d.newValue) = some u.newValue ∧
    (redo now2 (undo now1 (addContentChange u cid s))).history =
      (addContentChange u cid s).history := by
  cases hflag : s.isExecutingCommand with
  | false =>
    have h1flag : (addContentChange u cid s).isExecutingCommand = false :=
      (addContentChange_flag u cid s).trans hflag
    have hu : undo now1 (addContentChange u cid s)
        = undoCore now1 (beginCommand (addContentChange u cid s)) := by
      rw [undo, if_neg]
      rintro (hnil | htrue)
      · rw [addContentChange_history] at hnil
        simp at hnil
      · rw [h1flag] at htrue
        exact Bool.false_ne_true htrue
    have hs2hist : (undoCore now1 (beginCommand (addContentChange u cid s))).history
        = { past := s.history.past
            present := s.history.present
            future := [[mkChange cid u]] } := by
      rw [undoCore_history, beginCommand_history, addContentChange_history]
      simp
    have hget : mapGet (addContentChange u cid s).draftChanges u.elementId
        = some (updatedOf u s) := by
      rw [addContentChange_draft]
      exact mapGet_mapSet_self _ _ _
    have hs2draft : (undoCore now1 (beginCommand (addContentChange u cid s))).draftChanges
        = mapSet (addContentChange u cid s).draftChanges u.elementId
            { updatedOf u s with newValue := u.oldValue, timestamp := now1 } := by
      rw [undoCore_draft, beginCommand_draft, beginCommand_history, addContentChange_history]
      simp [undoDraftUpdate, hget, mkChange_oldValue, mkChange_elementId]
    have hs2flag : (undoCore now1 (beginCommand (addContentChange u cid s))).isExecutingCommand
        = false := undoCore_flag now1 _
    have hr : redo now2 (undoCore now1 (beginCommand (addContentChange u cid s)))
        = redoCore now2 (beginCommand (undoCore now1 (beginCommand (addContentChange u cid s)))) := by
      rw [redo, if_neg]
      rintro (hnil | htrue)
      · rw [hs2hist] at hnil
        simp at hnil
      · rw [hs2flag] at htrue
        exact Bool.false_ne_true htrue
    have h3hist : (redoCore now2
          (beginCommand (undoCore now1 (beginCommand (addContentChange u cid s))))).history
        = { past := s.history.past ++ [s.history.present]
            present := [mkChange cid u]
            future := [] } := by
      rw [redoCore_history, beginCommand_history, hs2hist]
      simp
    have hget2 : mapGet (undoCore now1 (beginCommand (addContentChange u cid s))).draftChanges
          u.elementId
        = some { updatedOf u s with newValue := u.oldValue, timestamp := now1 } := by
      rw [hs2draft]
      exact mapGet_mapSet_self _ _ _
    have h3draft : (redoCore now2
          (beginCommand (undoCore now1 (beginCommand (addContentChange u cid s))))).draftChanges
        = mapSet (undoCore now1 (beginCommand (addContentChange u cid s))).draftChanges u.elementId
            { updatedOf u s with newValue := u.newValue, timestamp := now2 } := by
      rw [redoCore_draft, beginCommand_draft, beginCommand_history, hs2hist]
      simp [redoDraftUpdate, hget2, mkChange_newValue, mkChange_elementId]
    constructor
    · rw [hu, hr, h3draft, mapGet_mapSet_self]
      rfl
    · rw [hu, hr, h3hist, addContentChange_history]
  | true =>
    have h1flag : (addContentChange u cid s).isExecutingCommand = true :=
      (addContentChange_flag u cid s).trans hflag
    have hu : undo now1 (addContentChange u cid s) = addContentChange u cid s := by
      rw [undo, if_pos (Or.inr h1flag)]
    have hr : redo now2 (addContentChange u cid s) = addContentChange u cid s := by
      rw [redo, if_pos (Or.inr h1flag)]
    rw [hu, hr]
    refine ⟨?_, rfl⟩
    rw [addContentChange_draft, mapGet_mapSet_self]
    rfl

/-- C3: recording a new change via `addContentChange` leaves
`history.future` empty, whatever the editor state held before (in
particular the whole redo branch accumulated by prior undos is
discarded). -/
theorem claim3_new_change_clears_future (u : ContentUpdate) (cid : String) (s : EditorState) :
    (addContentChange u cid s).history.future = [] := rfl

/-- C7: whenever `isExecutingCommand` is set (as it is for the duration of
an undo or redo, which run their bodies on `beginCommand s`), an inbound
CONTENT_CHANGED report is ignored: the handler records nothing and returns
the editor state unchanged. -/
theorem claim7_ignore_during_command (p : ContentChangedPayload) (now : Int) (cid : String)
    (s : EditorState) (h : s.isExecutingCommand = true) :
    handleContentChanged p now cid s = s := by
  simp [handleContentChanged, h]

/-- Witness for C7: a state mid-command (the flag set exactly as undo/redo
set it) ignores a concrete CONTENT_CHANGED report. -/
theorem claim7_ignore_during_command_witness :
    (beginCommand initialState).isExecutingCommand = true ∧
    handleContentChanged { elementId := some "a", newContent := some (.str "v") } 3 "c"
        (beginCommand initialState) = beginCommand initialState :=
  ⟨rfl, claim7_ignore_during_command _ _ _ _ rfl⟩

/-- C8: `hasUnpublishedChanges` is true immediately after any recorded
change, is left untouched by `markDraftsSaved` (so it remains true after a
successful saveDraft), and is cleared by `markDraftsPublished`. -/
theorem claim8_unpublished_flag (s : EditorState) (u : ContentUpdate) (cid : String) (now : Int) :
    (addContentChange u cid s).hasUnpublishedChanges = true ∧
    (markDraftsSaved now s).hasUnpublishedChanges = s.hasUnpublishedChanges ∧
    (markDraftsPublished s).hasUnpublishedChanges = false :=
  ⟨rfl, rfl, rfl⟩

/-- C10: a CONTENT_CHANGED report whose resolved old value (the message's
`oldContent` when provided, else the current draft `newValue`, else the
empty string) equals its `newContent` records nothing: the handler returns
the state unchanged (so Draft map, History and both dirty flags are all
untouched). -/
theorem claim10_dedup_noop (p : ContentChangedPayload) (now : Int) (cid : String)
    (s : EditorState) (eid : String) (nc : ContentValue)
    (hflag : s.isExecutingCommand = false)
    (hid : p.elementId = some eid)
    (hnc : p.newContent = some nc)
    (hdup : resolvedOldValue p s eid = nc) :
    handleContentChanged p now cid s = s := by
  simp [handleContentChanged, hflag, hid, hnc, hdup]

theorem reconcileStep_get_ne (now : Int) (r : ReconcileResult)
    (kb : String × DraftContentBlock) (k : String) (h : kb.1 ≠ k) :
    mapGet (reconcileStep now r kb).draftChanges k = mapGet r.draftChanges k ∧
    mapGet (reconcileStep now r kb).originalContent k = mapGet r.originalContent k ∧
    mapGet (reconcileStep now r kb).publishedContent k = mapGet r.publishedContent k := by
  by_cases hc : importCond kb.2
  · simp [reconcileStep, hc, mapGet_mapSet_ne _ _ _ _ h]
  · simp [reconcileStep, hc]

theorem reconcileFold_notmem (now : Int) (blocks : List (String × DraftContentBlock))
    (k : String) :
    ∀ r : ReconcileResult, k ∉ blocks.map Prod.fst →
      mapGet (blocks.foldl (reconcileStep now) r).draftChanges k = mapGet r.draftChanges k ∧
      mapGet (blocks.foldl (reconcileStep now) r).originalContent k = mapGet r.originalContent k ∧
      mapGet (blocks.foldl (reconcileStep now) r).publishedContent k = mapGet r.publishedContent k := by
  induction blocks with
  | nil => exact fun r _ => ⟨rfl, rfl, rfl⟩
  | cons x xs ih =>
    intro r h
    have hk : x.1 ≠ k := fun he => h (by simp [he])
    have hrest : k ∉ xs.map Prod.fst := fun hm => h (by simp [hm])
    have hstep := reconcileStep_get_ne now r x k hk
    have hfold := ih (reconcileStep now r x) hrest
    rw [List.foldl_cons]
    exact ⟨hfold.1.trans hstep.1, hfold.2.1.trans hstep.2.1, hfold.2.2.trans hstep.2.2⟩

theorem reconcileFold_mem (now : Int) (blocks : List (String × DraftContentBlock))
    (k : String) (b : DraftContentBlock) :
    ∀ r : ReconcileResult,
      (blocks.map Prod.fst).Nodup → (k, b) ∈ blocks →
      mapGet r.draftChanges k = none → mapGet r.originalContent k = none →
      mapGet r.publishedContent k = none →
      (mapGet (blocks.foldl (reconcileStep now) r).draftChanges k
          = if importCond b then some (reconcileUpdate k b now) else none) ∧
      (mapGet (blocks.foldl (reconcileStep now) r).originalContent k
          = if importCond b then some (.str (jsOrStr b.publishedValue "")) else none) ∧
      (mapGet (blocks.foldl (reconcileStep now) r).publishedContent k
          = if importCond b then some (.str (jsOrStr b.publishedValue "")) else none) := by
  induction blocks with
  | nil =>
    intro r _ hmem
    simp at hmem
  | cons x xs ih =>
    intro r hnodup hmem hd ho hp
    rw [List.foldl_cons]
    rcases List.mem_cons.mp hmem with heq | hmem2
    · subst heq
      have hnot : k ∉ xs.map Prod.fst := by
        rw [List.map_cons] at hnodup
        exact (List.nodup_cons.mp hnodup).1
      obtain ⟨f1, f2, f3⟩ := reconcileFold_notmem now xs k (reconcileStep now r (k, b)) hnot
      by_cases hc : importCond b
      · refine ⟨?_, ?_, ?_⟩
        · rw [f1]
          simp [reconcileStep, hc, mapGet_mapSet_self]
        · rw [f2]
          simp [reconcileStep, hc, mapGet_mapSet_self]
        · rw [f3]
          simp [reconcileStep, hc, mapGet_mapSet_self]
      · have hstep : reconcileStep now r (k, b) = r := by
          simp [reconcileStep, hc]
        rw [hstep] at f1 f2 f3
        rw [hstep]
        refine ⟨?_, ?_, ?_⟩
        · rw [f1, hd]
          simp [hc]
        · rw [f2, ho]
          simp [hc]
        · rw [f3, hp]
          simp [hc]
    · have hk1 : x.1 ≠ k := by
        intro he
        have hkin : k ∈ xs.map Prod.fst := List.mem_map.mpr ⟨(k, b), hmem2, rfl⟩
        rw [List.map_cons] at hnodup
        exact (List.nodup_cons.mp hnodup).1 (by rw [he]; exact hkin)
      have hnodup2 : (xs.map Prod.fst).Nodup := by
        rw [List.map_cons] at hnodup
        exact (List.nodup_cons.mp hnodup).2
      have hstep := reconcileStep_get_ne now r x k hk1
      exact ih (reconcileStep now r x) hnodup2 hmem2 (hstep.1.trans hd)
        (hstep.2.1.trans ho) (hstep.2.2.trans hp)

/-- C4: `loadDraftContent` imports exactly the persisted blocks having
`hasUnpublishedChanges` or status "draft" (`importCond`): for every block
list with distinct keys, a block's key appears in the rebuilt Draft map iff
the condition holds, and an imported block's Draft entry carries
`reconcileOldValue`/`reconcileNewValue` (published value and draft value
when both exist; empty string and draft value when only a draft value
exists; the persisted current value as fallback) while the Original and
Published maps both get `publishedValue || ""`. -/
theorem claim4_reconciliation (blocks : List (String × DraftContentBlock)) (now : Int)
    (k : String) (b : DraftContentBlock)
    (hnodup : (blocks.map Prod.fst).Nodup) (hmem : (k, b) ∈ blocks) :
    (mapGet (reconcileBlocks blocks now).draftChanges k
        = if importCond b then some (reconcileUpdate k b now) else none) ∧
    (mapGet (reconcileBlocks blocks now).originalContent k
        = if importCond b then some (.str (jsOrStr b.publishedValue "")) else none) ∧
    (mapGet (reconcileBlocks blocks now).publishedContent k
        = if importCond b then some (.str (jsOrStr b.publishedValue "")) else none) :=
  reconcileFold_mem now blocks k b _ hnodup hmem rfl rfl rfl

/-- Witness for C4, covering both spec scenarios: the block with
publishedValue "Hello" and draftValue "Hello there" yields a Draft entry
with oldValue "Hello", newValue "Hello there" and Original/Published
"Hello"; the never-published block with draftValue "New" yields Original
"" and Draft newValue "New". -/
theorem claim4_reconciliation_witness :
    (([("welcome", exampleBlockEdited)].map Prod.fst).Nodup ∧
      ("welcome", exampleBlockEdited) ∈ [("welcome", exampleBlockEdited)] ∧
      mapGet (reconcileBlocks [("welcome", exampleBlockEdited)] 9).draftChanges "welcome"
        = some { elementId := "welcome", type := .text, oldValue := .str "Hello"
                 newValue := .str "Hello there", timestamp := 9 } ∧
      mapGet (reconcileBlocks [("welcome", exampleBlockEdited)] 9).originalContent "welcome"
        = some (.str "Hello") ∧
      mapGet (reconcileBlocks [("welcome", exampleBlockEdited)] 9).publishedContent "welcome"
        = some (.str "Hello")) ∧
    (([("intro", exampleBlockNew)].map Prod.fst).Nodup ∧
      ("intro", exampleBlockNew) ∈ [("intro", exampleBlockNew)] ∧
      mapGet (reconcileBlocks [("intro", exampleBlockNew)] 9).draftChanges "intro"
        = some { elementId := "intro", type := .text, oldValue := .str ""
                 newValue := .str "New", timestamp := 9 } ∧
      mapGet (reconcileBlocks [("intro", exampleBlockNew)] 9).originalContent "intro"
        = some (.str "")) := by
  constructor
  · refine ⟨by decide, by decide, ?_, ?_, ?_⟩
    · exact ((claim4_reconciliation [("welcome", exampleBlockEdited)] 9 "welcome"
        exampleBlockEdited (by decide) (by decide)).1).trans (by decide)
    · exact ((claim4_reconciliation [("welcome", exampleBlockEdited)] 9 "welcome"
        exampleBlockEdited (by decide) (by decide)).2.1).trans (by decide)
    · exact ((claim4_reconciliation [("welcome", exampleBlockEdited)] 9 "welcome"
        exampleBlockEdited (by decide) (by decide)).2.2).trans (by decide)
  · refine ⟨by decide, by decide, ?_, ?_⟩
    · exact ((claim4_reconciliation [("intro", exampleBlockNew)] 9 "intro"
        exampleBlockNew (by decide) (by decide)).1).trans (by decide)
    · exact ((claim4_reconciliation [("intro", exampleBlockNew)] 9 "intro"
        exampleBlockNew (by decide) (by decide)).2.1).trans (by decide)

/-- Witness for C10: an agent-originated no-op report (old and new content
both "x") leaves the fresh editor state unchanged. -/
theorem claim10_dedup_noop_witness :
    initialState.isExecutingCommand = false ∧
    resolvedOldValue
        { elementId := some "a", newContent := some (.str "x"), oldContent := some (.str "x") }
        initialState "a" = .str "x" ∧
    handleContentChanged
        { elementId := some "a", newContent := some (.str "x"), oldContent := some (.str "x") }
        5 "c" initialState = initialState :=
  ⟨rfl, rfl, claim10_dedup_noop _ _ _ _ _ _ rfl rfl rfl rfl⟩

theorem sendToIframe_queued (m : EditorMessageDraft) (mid : String) (ts : Int) (b : BridgeState)
    (hinit : b.isInitialized = true) (hready : b.isReady = false) :
    sendToIframe m mid ts b
      = { b with messageQueue := b.messageQueue ++ [stampMessage m mid ts] } := by
  simp [sendToIframe, hinit, hready]

theorem sendAll_queued (msgs : List (EditorMessageDraft × String × Int)) :
    ∀ b : BridgeState, b.isInitialized = true → b.isReady = false →
      sendAll msgs b
        = { b with
            messageQueue := b.messageQueue ++ msgs.map (fun x => stampMessage x.1 x.2.1 x.2.2) } := by
  induction msgs with
  | nil =>
    intro b _ _
    simp [sendAll]
  | cons x xs ih =>
    intro b hinit hready
    have h1 : sendAll (x :: xs) b = sendAll xs (sendToIframe x.1 x.2.1 x.2.2 b) := rfl
    rw [h1, sendToIframe_queued _ _ _ _ hinit hready,
      ih { b with messageQueue := b.messageQueue ++ [stampMessage x.1 x.2.1 x.2.2] } hinit hready]
    simp

theorem handleWindowMessage_pass (origin : String) (m : InboundMessage) (b : BridgeState)
    (horigin : b.allowedOrigins = [] ∨ b.allowedOrigins.contains origin = true) :
    handleWindowMessage origin m b = processInbound m b := by
  have hguard : (!b.allowedOrigins.isEmpty && !(b.allowedOrigins.contains origin)) = false := by
    rcases horigin with h | h
    · rw [h]
      rfl
    · rw [h]
      simp
  unfold handleWindowMessage
  rw [hguard]
  simp

theorem processInbound_ready (rm : InboundMessage) (b : BridgeState)
    (htype : rm.type = some "IFRAME_READY") (hvalid : validEnvelope rm = true)
    (hframe : b.hasFrame = true) :
    (processInbound rm b).posted = b.posted ++ b.messageQueue ∧
    (processInbound rm b).messageQueue = [] ∧
    (processInbound rm b).isReady = true := by
  have hv : (!(validEnvelope rm)) = false := by
    rw [hvalid]
    rfl
  refine ⟨?_, ?_, ?_⟩ <;>
    simp [processInbound, hv, htype, flushMessageQueue, hframe, apply_ite, ite_self]

/-- C5: every message passed to `sendToIframe` before the frame has
signaled IFRAME_READY is enqueued, and the first valid IFRAME_READY
message flushes the queue in FIFO order: after any k pre-readiness sends
followed by the readiness signal, all queued messages (the pre-existing
queue followed by the k stamped sends, in send order) are posted to the
frame, none is dropped, the queue is empty and the bridge is ready. -/
theorem claim5_bridge_fifo_flush (b : BridgeState)
    (msgs : List (EditorMessageDraft × String × Int)) (origin : String) (rm : InboundMessage)
    (hinit : b.isInitialized = true) (hready : b.isReady = false) (hframe : b.hasFrame = true)
    (horigin : b.allowedOrigins = [] ∨ b.allowedOrigins.contains origin = true)
    (htype : rm.type = some "IFRAME_READY") (hvalid : validEnvelope rm = true) :
    (handleWindowMessage origin rm (sendAll msgs b)).posted
        = b.posted ++ b.messageQueue ++ msgs.map (fun x => stampMessage x.1 x.2.1 x.2.2) ∧
    (handleWindowMessage origin rm (sendAll msgs b)).messageQueue = [] ∧
    (handleWindowMessage origin rm (sendAll msgs b)).isReady = true := by
  rw [sendAll_queued msgs b hinit hready,
    handleWindowMessage_pass origin rm
      { b with messageQueue := b.messageQueue ++ msgs.map (fun x => stampMessage x.1 x.2.1 x.2.2) }
      horigin]
  have hc := processInbound_ready rm
    { b with messageQueue := b.messageQueue ++ msgs.map (fun x => stampMessage x.1 x.2.1 x.2.2) }
    htype hvalid hframe
  refine ⟨hc.1.trans ?_, hc.2.1, hc.2.2⟩
  simp

/-- Witness for C5: three sends issued before readiness are all posted, in
send order, once a valid IFRAME_READY arrives; the queue ends empty. -/
theorem claim5_bridge_fifo_flush_witness :
    exampleBridge.isInitialized = true ∧
    exampleBridge.isReady = false ∧
    exampleBridge.hasFrame = true ∧
    (exampleBridge.allowedOrigins = []
      ∨ exampleBridge.allowedOrigins.contains "http://localhost:3001" = true) ∧
    exampleReady.type = some "IFRAME_READY" ∧
    validEnvelope exampleReady = true ∧
    (handleWindowMessage "http://localhost:3001" exampleReady
        (sendAll exampleSends exampleBridge)).posted
      = exampleBridge.posted ++ exampleBridge.messageQueue
          ++ exampleSends.map (fun x => stampMessage x.1 x.2.1 x.2.2) ∧
    (handleWindowMessage "http://localhost:3001" exampleReady
        (sendAll exampleSends exampleBridge)).messageQueue = [] ∧
    (handleWindowMessage "http://localhost:3001" exampleReady
        (sendAll exampleSends exampleBridge)).isReady = true := by
  have h := claim5_bridge_fifo_flush exampleBridge exampleSends "http://localhost:3001"
    exampleReady rfl rfl rfl (Or.inl rfl) rfl rfl
  exact ⟨rfl, rfl, rfl, Or.inl rfl, rfl, rfl, h.1, h.2.1, h.2.2⟩

/-- C6: once a non-empty allow-list is configured, an inbound message from
an origin outside the list leaves the bridge unchanged — in particular it
is never dispatched to any registered handler; and while no non-empty list
is set, the listener processes a message identically for every sender
origin (`processInbound`, the origin-independent remainder of the
listener). -/
theorem claim6_origin_filter (origin : String) (m : InboundMessage) (b : BridgeState) :
    (b.allowedOrigins ≠ [] → b.allowedOrigins.contains origin = false →
      handleWindowMessage origin m b = b) ∧
    (b.allowedOrigins = [] → handleWindowMessage origin m b = processInbound m b) := by
  constructor
  · intro hne hcon
    have hie : b.allowedOrigins.isEmpty = false := by
      cases hl : b.allowedOrigins with
      | nil => exact absurd hl hne
      | cons hd tl => rfl
    have hguard : (!b.allowedOrigins.isEmpty && !(b.allowedOrigins.contains origin)) = true := by
      rw [hie, hcon]
      rfl
    unfold handleWindowMessage
    rw [hguard]
    simp
  · intro h
    have hguard : (!b.allowedOrigins.isEmpty && !(b.allowedOrigins.contains origin)) = false := by
      rw [h]
      rfl
    unfold handleWindowMessage
    rw [hguard]
    simp

/-- Witness for C6: with allow-list ["http://localhost:3001"], a message
from "http://evil.example" leaves the bridge unchanged; with no allow-list
set, a message from an arbitrary origin is processed. -/
theorem claim6_origin_filter_witness :
    (exampleBridgeAllowed.allowedOrigins ≠ [] ∧
      exampleBridgeAllowed.allowedOrigins.contains "http://evil.example" = false ∧
      handleWindowMessage "http://evil.example" exampleInbound exampleBridgeAllowed
        = exampleBridgeAllowed) ∧
    (exampleBridge.allowedOrigins = [] ∧
      handleWindowMessage "http://anywhere.example" exampleInbound exampleBridge
        = processInbound exampleInbound exampleBridge) :=
  ⟨⟨by decide, by decide,
      (claim6_origin_filter "http://evil.example" exampleInbound exampleBridgeAllowed).1
        (by decide) (by decide)⟩,
    ⟨rfl,
      (claim6_origin_filter "http://anywhere.example" exampleInbound exampleBridge).2 rfl⟩⟩

theorem agentRun_clicks_inactive (evs : List AgentEvent) :
    ∀ a : AgentState, a.isInEditorMode = false → (∀ ev ∈ evs, ev.isClick = true) →
      agentRun evs a = a := by
  induction evs with
  | nil => exact fun a _ _ => rfl
  | cons ev rest ih =>
    intro a hflag hclicks
    have hev := hclicks ev (List.mem_cons_self _ _)
    cases ev with
    | click t =>
      have hstep : agentStep (.click t) a = a := by
        simp [agentStep, agentClick, hflag]
      have h1 : agentRun (.click t :: rest) a = agentRun rest (agentStep (.click t) a) := rfl
      rw [h1, hstep]
      exact ih a hflag (fun e he => hclicks e (List.mem_cons_of_mem _ he))
    | message o m => simp [AgentEvent.isClick] at hev

/-- C9 counterexample: the agent in a non-embedded document is not fully
inactive — its message listener is installed regardless of embeddedness,
so a single inbound UPDATE_CONTENT message (here from an arbitrary
non-editor origin, while no editor origin has been captured) mutates the
document, contradicting "it never mutates the document". -/
theorem claim9_counterexample :
    ¬ ((agentRun [.message "https://evil.example" (.updateContent "hero" "Pwned")]
          (initAgent false exampleDom)).dom = (initAgent false exampleDom).dom) := by
  decide

/-- C9 amended: when the previewed document is not embedded, the agent
announces nothing at startup, and for every sequence of DOM click events
it stays fully inert (the whole agent state, document included, is
unchanged, and no message is ever sent); inbound editor messages, however,
are still processed by the always-installed listener. -/
theorem claim9_amended_inactive_for_clicks (d : Dom) (evs : List AgentEvent)
    (hclicks : ∀ ev ∈ evs, ev.isClick = true) :
    (initAgent false d).outbox = [] ∧
    agentRun evs (initAgent false d) = initAgent false d :=
  ⟨rfl, agentRun_clicks_inactive evs (initAgent false d) rfl hclicks⟩

/-- Witness for C9 amended: a background click followed by a click on an
editable element leave the non-embedded agent exactly in its initial
state, with nothing sent. -/
theorem claim9_amended_inactive_for_clicks_witness :
    (∀ ev ∈ ([.click .background, .click (.onEditable "hero")] : List AgentEvent),
      ev.isClick = true) ∧
    (initAgent false exampleDom).outbox = [] ∧
    agentRun [.click .background, .click (.onEditable "hero")] (initAgent false exampleDom)
      = initAgent false exampleDom := by
  have h := claim9_amended_inactive_for_clicks exampleDom
    [.click .background, .click (.onEditable "hero")] (by decide)
  exact ⟨by decide, h.1, h.2⟩

end SiteEditor
